import Mathlib

/-!
Shallow embedding of the bubbleOne ML service core
(services/ml/app: scoring.py, models.py, langgraph_flow.py,
llm_clients.py, rag_store.py) together with theorems settling the
specification claims about it.

Modelling conventions:
* Python floats are modelled as real numbers; timestamps (datetime
  values) are modelled as rational numbers of seconds, so that the
  event sort is computable.  Differences of timestamps divided by
  86400 give fractional days, exactly as `_days_between` does.
* `round(x, 2)` / `round(x, 4)` are modelled as rounding to the
  nearest multiple of 1/100 resp. 1/10000.
* Dictionaries with string keys are modelled as association lists.
-/

namespace BubbleOne

/-- The `InteractionType` literal enum from models.py. -/
inductive InteractionType where
  | text
  | call
  | ignored_message
  | auto_nudge
  | missed_call
deriving DecidableEq, Repr

/-- The validated event record `MetadataEvent` from models.py.
Field constraints (sentiment range, summary length, forbidden metadata
keys) are enforced by the pydantic constructor, embedded below as
`mk_metadata_event`; this structure is the post-validation value. -/
structure MetadataEvent where
  event_id : String
  contact_hash : String
  ts : ℚ
  interaction_type : InteractionType
  sentiment : ℚ
  intent : String
  summary : String
  metadata : List (String × String)
deriving DecidableEq, Repr

/-- The forbidden raw-text metadata keys checked by
`MetadataEvent.validate_privacy` in models.py. -/
def forbidden_keys : List String :=
  ["raw_message", "message_text", "full_text", "chat_text"]

/-- The pydantic construction of a `MetadataEvent` (models.py):
`sentiment` must lie in [-1, 1], `summary` must have between 8 and 280
characters, and the metadata sidecar must not contain any forbidden
raw-text key; otherwise construction raises a validation error,
modelled by `Except.error`. -/
def mk_metadata_event (event_id contact_hash : String) (ts : ℚ)
    (interaction_type : InteractionType) (sentiment : ℚ) (intent : String)
    (summary : String) (metadata : List (String × String)) :
    Except String MetadataEvent :=
  if ¬ (-1 ≤ sentiment ∧ sentiment ≤ 1) then
    Except.error "sentiment out of range"
  else if ¬ (8 ≤ summary.length ∧ summary.length ≤ 280) then
    Except.error "summary length out of range"
  else if (metadata.map Prod.fst).any (fun k => forbidden_keys.contains k) then
    Except.error "Forbidden raw-text keys in metadata"
  else
    Except.ok
      { event_id := event_id, contact_hash := contact_hash, ts := ts,
        interaction_type := interaction_type, sentiment := sentiment,
        intent := intent, summary := summary, metadata := metadata }

/-- `ScoringHyperParams` from scoring.py. -/
structure ScoringHyperParams where
  lambda_decay : ℝ
  recency_gamma : ℝ
  sentiment_weight : ℝ
  interaction_multiplier : ℝ
  min_score : ℝ
  max_score : ℝ

/-- The dataclass defaults of `ScoringHyperParams`. -/
noncomputable def defaultHyperParams : ScoringHyperParams :=
  { lambda_decay := 0.08, recency_gamma := 0.05, sentiment_weight := 6.0,
    interaction_multiplier := 1.0, min_score := 0.0, max_score := 100.0 }

/-- `INTERACTION_WEIGHTS` from scoring.py.  The Python dict is total on
the `InteractionType` enum, so it is embedded as a total function. -/
noncomputable def INTERACTION_WEIGHTS : InteractionType → ℝ
  | .call => 8.0
  | .text => 4.0
  | .ignored_message => -7.0
  | .auto_nudge => 2.0
  | .missed_call => -3.0

/-- `INTENT_WEIGHTS` from scoring.py. -/
noncomputable def INTENT_WEIGHTS : List (String × ℝ) :=
  [("support", 2.5), ("check_in", 1.2), ("plan_event", 2.0),
   ("small_talk", 0.5), ("follow_up", 1.5), ("request_help", 1.0)]

/-- `INTENT_WEIGHTS.get(intent, 0.5)` from `interaction_impact`. -/
noncomputable def intent_weight (intent : String) : ℝ :=
  (INTENT_WEIGHTS.lookup intent).getD 0.5

/-- `clamp_score` from scoring.py: `max(low, min(high, value))`. -/
noncomputable def clamp_score (value : ℝ) (low : ℝ) (high : ℝ) : ℝ :=
  max low (min high value)

/-- `band_for_score` from scoring.py. -/
noncomputable def band_for_score (score : ℝ) : String :=
  if score ≥ 75 then "good"
  else if score ≥ 45 then "fading"
  else "critical"

/-- `risk_level_for_score` from scoring.py. -/
noncomputable def risk_level_for_score (score : ℝ) (anomaly_detected : Bool) :
    String :=
  if anomaly_detected ∨ score < 45 then "high"
  else if score < 70 then "medium"
  else "low"

/-- `_days_between` from scoring.py:
`max((a - b).total_seconds() / 86400.0, 0.0)`, on timestamps in
seconds. -/
def days_between (a b : ℚ) : ℚ :=
  max ((a - b) / 86400) 0

/-- `round(x, 2)` on a real value. -/
noncomputable def round2 (x : ℝ) : ℝ :=
  ((round (x * 100) : ℤ) : ℝ) / 100

/-- `round(x, 4)` on a real value. -/
noncomputable def round4 (x : ℝ) : ℝ :=
  ((round (x * 10000) : ℤ) : ℝ) / 10000

/-- `interaction_impact` from scoring.py. -/
noncomputable def interaction_impact (event : MetadataEvent)
    (reference_time : ℚ) (hp : ScoringHyperParams) : ℝ :=
  (INTERACTION_WEIGHTS event.interaction_type + intent_weight event.intent
      + hp.sentiment_weight * (event.sentiment : ℝ))
    * hp.interaction_multiplier
    * Real.exp (-hp.recency_gamma * ((days_between reference_time event.ts : ℚ) : ℝ))

/-- `update_score` from scoring.py: decay the old score by
`exp(-lambda * max(delta_t_days, 0))`, add the interaction impact, and
clamp. -/
noncomputable def update_score (old_score : ℝ) (event : MetadataEvent)
    (delta_t_days : ℚ) (reference_time : ℚ) (hp : ScoringHyperParams) : ℝ :=
  clamp_score
    (old_score * Real.exp (-hp.lambda_decay * ((max delta_t_days 0 : ℚ) : ℝ))
      + interaction_impact event reference_time hp)
    hp.min_score hp.max_score

/-- `sorted(list(events), key=lambda e: e.ts)` — Python's stable sort
ascending by timestamp. -/
def sortEvents (events : List MetadataEvent) : List MetadataEvent :=
  events.mergeSort (fun a b => decide (a.ts ≤ b.ts))

/-- The `for event in event_list` loop body of
`compute_relationship_score` (scoring.py lines 140-149): the running
score is updated with `update_score`, with `delta_t_days` the gap from
`prev_ts` to the event, and `prev_ts` then advances to the event's
timestamp.  Returns the final `(score, prev_ts)` pair. -/
noncomputable def scoreLoop (hp : ScoringHyperParams) (now : ℚ) :
    ℝ → ℚ → List MetadataEvent → ℝ × ℚ
  | score, prev_ts, [] => (score, prev_ts)
  | score, prev_ts, event :: rest =>
      scoreLoop hp now
        (update_score score event (days_between event.ts prev_ts) now hp)
        event.ts rest

/-- `compute_relationship_score` from scoring.py.  `as_of` is the
explicit reference time (the Python default `datetime.now` is an
external clock, so the model always passes it explicitly). -/
noncomputable def compute_relationship_score (events : List MetadataEvent)
    (previous_score : ℝ) (as_of : ℚ) (hp : ScoringHyperParams) : ℝ :=
  match sortEvents events with
  | [] => round2 (clamp_score previous_score hp.min_score hp.max_score)
  | e :: rest =>
      let start := clamp_score previous_score hp.min_score hp.max_score
      let final := scoreLoop hp as_of start e.ts (e :: rest)
      let tail_days := days_between as_of final.2
      round2 (clamp_score
        (final.1 * Real.exp (-hp.lambda_decay * ((tail_days : ℚ) : ℝ)))
        hp.min_score hp.max_score)

/-- The scoring algorithm as the specification words it (spec §4.1):
sort ascending by timestamp; empty input returns the clamped previous
score rounded to 2 decimals; otherwise fold `update_score` over the
sorted sequence starting from the clamped previous score, each step
using the gap to the previous event as `deltaDays` (zero for the first
event), then apply one final decay for the gap between the last event
and `as_of`, clamp and round to 2 decimals.  Written from the spec for
comparison with `compute_relationship_score`. -/
noncomputable def computeRelationshipScoreSpec (events : List MetadataEvent)
    (previous_score : ℝ) (as_of : ℚ) (hp : ScoringHyperParams) : ℝ :=
  match sortEvents events with
  | [] => round2 (clamp_score previous_score hp.min_score hp.max_score)
  | e :: rest =>
      let start := clamp_score previous_score hp.min_score hp.max_score
      let folded := (e :: rest).foldl
        (fun acc ev =>
          (update_score acc.1 ev (days_between ev.ts acc.2) as_of hp, ev.ts))
        (start, e.ts)
      let last_ts := (rest.getLastD e).ts
      round2 (clamp_score
        (folded.1 * Real.exp
          (-hp.lambda_decay * ((days_between as_of last_ts : ℚ) : ℝ)))
        hp.min_score hp.max_score)

/-- The consecutive inter-event gaps (in days) of
`train_temporal_decay`: `_days_between(e[i].ts, e[i-1].ts)` for
`i = 1 .. n-1` over the time-sorted event list. -/
def eventGaps (event_list : List MetadataEvent) : List ℚ :=
  (event_list.zip event_list.tail).map
    (fun p => days_between p.2.ts p.1.ts)

/-- `avg_gap = sum(gaps) / max(len(gaps), 1)` from
`train_temporal_decay`. -/
def avg_gap (gaps : List ℚ) : ℚ :=
  gaps.sum / (max gaps.length 1 : ℕ)

/-- `variability = (max(gaps) - min(gaps)) if gaps else 0.0` from
`train_temporal_decay`. -/
def gap_variability (gaps : List ℚ) : ℚ :=
  if gaps.isEmpty then 0 else gaps.max?.getD 0 - gaps.min?.getD 0

/-- `train_temporal_decay` from scoring.py. -/
noncomputable def train_temporal_decay (events : List MetadataEvent)
    (base_lambda : ℝ) : ℝ :=
  let event_list := sortEvents events
  if event_list.length < 2 then round4 base_lambda
  else
    let gaps := eventGaps event_list
    let trained : ℝ := base_lambda + 0.01 * ((min (avg_gap gaps) 7 : ℚ) : ℝ)
      + 0.003 * ((min (gap_variability gaps) 7 : ℚ) : ℝ)
    round4 (max 0.03 (min 0.2 trained))

/-- The nodes of the langgraph state machine built by
`RelationshipFlow._build_graph` (langgraph_flow.py), plus the END
sentinel. -/
inductive FlowNode where
  | analyze_anomaly
  | query_rag
  | plan_action
  | schedule_action
  | flow_end
deriving DecidableEq, Repr

/-- `RelationshipFlow._analyze_anomaly` (langgraph_flow.py): computes
the anomaly flag and the reason tag from the previous score, the
current score and the recent metadata items (each contributing its
`sentiment` field).  Returns `(anomaly_detected, anomaly_reason)`. -/
def analyze_anomaly (previous_score current_score : ℚ)
    (recent_metadata : List MetadataEvent) : Bool × String :=
  let score_drop := previous_score - current_score
  let negative_signal :=
    recent_metadata.any (fun item => decide (item.sentiment ≤ -0.35))
  let anomaly := decide (score_drop ≥ 15) || negative_signal
  let reason :=
    if score_drop ≥ 15 ∧ negative_signal then "drop_and_negative_sentiment"
    else if score_drop ≥ 15 then "score_drop"
    else if negative_signal then "negative_sentiment"
    else "none"
  (anomaly, reason)

/-- `RelationshipFlow._route_after_anomaly` (langgraph_flow.py). -/
def route_after_anomaly (anomaly_detected : Bool) : String :=
  if anomaly_detected then "query_rag" else "plan_action"

/-- The edges wired in `RelationshipFlow._build_graph`
(langgraph_flow.py lines 103-124): the successor of each node, where
the conditional edge out of `analyze_anomaly` follows
`route_after_anomaly` applied to the anomaly flag of the state. -/
def flow_next (node : FlowNode) (anomaly_detected : Bool) : FlowNode :=
  match node with
  | .analyze_anomaly =>
      if route_after_anomaly anomaly_detected = "query_rag" then .query_rag
      else .plan_action
  | .query_rag => .plan_action
  | .plan_action => .schedule_action
  | .schedule_action => .flow_end
  | .flow_end => .flow_end

/-- The fully-populated plan returned by the planner component
(llm_clients.py): the five keys every sanitized or fallback plan
carries. -/
structure Plan where
  recommended_action : String
  draft_message : String
  action_type : String
  priority : String
  schedule_in_hours : ℤ
deriving DecidableEq, Repr

/-- The fields of the flow state that `PlannerLLM._fallback_plan`
reads: `current_score`, `anomaly_detected` and `alias` (with their
`state.get` defaults applied by the caller of this model; the Python
key `alias` is named `contact_alias` here because `alias` is reserved
in Lean). -/
structure PlannerState where
  current_score : ℚ
  anomaly_detected : Bool
  contact_alias : String
deriving DecidableEq, Repr

/-- A raw collaborator (LLM) response as seen by
`PlannerLLM._sanitize_output`: every key may be missing.  A string
field that is present carries the string the `str(...)` coercion
produced; `schedule_in_hours`, when present, is either successfully
convertible by `int(...)` (`some n`) or not (`none`). -/
structure PlannerResponse where
  recommended_action : Option String
  draft_message : Option String
  action_type : Option String
  priority : Option String
  schedule_in_hours : Option (Option ℤ)
deriving DecidableEq, Repr

/-- `PlannerLLM._fallback_plan` (llm_clients.py). -/
def fallback_plan (state : PlannerState) : Plan :=
  if state.anomaly_detected ∨ state.current_score < 45 then
    { recommended_action :=
        "Draft a gentle check-in text to " ++ state.contact_alias
          ++ " and schedule a call reminder tomorrow.",
      draft_message :=
        "Hey " ++ state.contact_alias
          ++ ", thinking of you. Want to catch up for 10 minutes this week?",
      action_type := "draft_and_schedule",
      priority := "high",
      schedule_in_hours := 24 }
  else if state.current_score < 75 then
    { recommended_action :=
        "Send " ++ state.contact_alias
          ++ " a short update and ask one meaningful question this evening.",
      draft_message :=
        "Hey " ++ state.contact_alias
          ++ ", quick update from me: things are good here. How have you been lately?",
      action_type := "draft",
      priority := "medium",
      schedule_in_hours := 8 }
  else
    { recommended_action :=
        "Maintain momentum with a light touchpoint for " ++ state.contact_alias
          ++ " this week.",
      draft_message :=
        "Hey " ++ state.contact_alias
          ++ ", hope your week is going well. Want to do a short catch-up soon?",
      action_type := "deprioritize",
      priority := "low",
      schedule_in_hours := 72 }

/-- One string field of `PlannerLLM._sanitize_output`:
`str(clean.get(key, fallback[key])).strip() or fallback[key]` after
`clean` was built as the fallback updated with the response — i.e. the
response value if present, else the fallback value, stripped, with the
fallback substituted when the stripped value is empty. -/
def sanitize_field (value : Option String) (fb : String) : String :=
  let s := (value.getD fb).trim
  if s = "" then fb else s

/-- The `schedule_in_hours` branch of `PlannerLLM._sanitize_output`:
`int(clean.get("schedule_in_hours", fallback[...]))` with the fallback
value substituted when the conversion raises. -/
def sanitize_schedule (value : Option (Option ℤ)) (fb : ℤ) : ℤ :=
  match value with
  | none => fb
  | some none => fb
  | some (some n) => n

/-- `PlannerLLM._sanitize_output` (llm_clients.py): merge the response
over the fallback plan field by field. -/
def sanitize_output (result : PlannerResponse) (state : PlannerState) : Plan :=
  let fb := fallback_plan state
  { recommended_action := sanitize_field result.recommended_action fb.recommended_action,
    draft_message := sanitize_field result.draft_message fb.draft_message,
    action_type := sanitize_field result.action_type fb.action_type,
    priority := sanitize_field result.priority fb.priority,
    schedule_in_hours := sanitize_schedule result.schedule_in_hours fb.schedule_in_hours }

/-- `PlannerLLM.recommend` (llm_clients.py): the collaborator outcome
is `some response` when a provider call returned parsed JSON, and
`none` when no provider is configured or any exception was raised
(caught by the bare `except` and turned into the fallback); a returned
response is always sanitized. -/
def recommend (collaborator : Option PlannerResponse) (state : PlannerState) :
    Plan :=
  match collaborator with
  | some result => sanitize_output result state
  | none => fallback_plan state

/-- A persisted row of the `rag_chunks` sqlite table (rag_store.py):
`id` is the `AUTOINCREMENT` surrogate key. -/
structure RagRow where
  row_id : ℕ
  event_id : String
  contact_hash : String
  summary : String
  metadata : List (String × String)
  created_at : String
deriving DecidableEq, Repr

/-- `RagResult` from rag_store.py. -/
structure RagResult where
  event_id : String
  contact_hash : String
  summary : String
  metadata : List (String × String)
  created_at : String
  score : ℝ

/-- The in-memory state of `RagStore` (rag_store.py): the sqlite rows,
the parallel `_id_map`, and the vector structure holding one normalized
embedding per position.  In the fallback backend the vector structure
is the dense `_matrix` (one row per vector); the optimized backend
(the external faiss `IndexFlatIP` library, exact inner-product search,
modelled from the spec as exposing the same add/query contract) holds
the same vectors in insertion order. -/
structure RagStore where
  rows : List RagRow
  id_map : List ℕ
  matrix : List (List ℝ)

/-- A `RagStore` opened on an empty data directory: no table rows, no
id map, matrix of zero rows. -/
def emptyStore : RagStore :=
  { rows := [], id_map := [], matrix := [] }

/-- The persisted snapshot written by `RagStore._persist_state`: the
id-map file and the vector snapshot file (index file or fallback
matrix file; the sqlite rows commit separately). -/
structure RagSnapshot where
  id_map_file : Option (List ℕ)
  vector_file : Option (List (List ℝ))

/-- `RagStore._persist_state` (rag_store.py): write the id map and the
vector snapshot. -/
def persist_state (s : RagStore) : RagSnapshot :=
  { id_map_file := some s.id_map, vector_file := some s.matrix }

/-- `RagStore._load_state` (rag_store.py): read the id-map file and
the vector snapshot file if present; a missing file leaves the empty
initial value. -/
def load_state (rows : List RagRow) (snap : RagSnapshot) : RagStore :=
  { rows := rows,
    id_map := snap.id_map_file.getD [],
    matrix := snap.vector_file.getD [] }

/-- The squared-sum part of `np.linalg.norm`. -/
noncomputable def vecNorm (v : List ℝ) : ℝ :=
  Real.sqrt ((v.map (fun x => x * x)).sum)

/-- `RagStore._normalize` (rag_store.py): divide by the L2 norm, or
return the vector unchanged when the norm is `<= 0`. -/
noncomputable def normalize (v : List ℝ) : List ℝ :=
  if vecNorm v ≤ 0 then v else v.map (fun x => x / vecNorm v)

/-- `np.dot` of two vectors. -/
noncomputable def dot (v w : List ℝ) : ℝ :=
  (List.zipWith (fun a b => a * b) v w).sum

/-- The input of one `RagStore.add_record` call.  `created_at` stands
for the wall-clock timestamp the Python code reads at call time. -/
structure AddInput where
  event_id : String
  contact_hash : String
  summary : String
  metadata : List (String × String)
  created_at : String
  embedding : List ℝ

/-- `RagStore.add_record` (rag_store.py): insert the metadata row
(receiving the next `AUTOINCREMENT` id), append the normalized
embedding to the vector structure, append the row id to `_id_map`,
persist, and return the row id. -/
noncomputable def add_record (s : RagStore) (a : AddInput) : ℕ × RagStore :=
  let row_id := s.rows.length + 1
  let row : RagRow :=
    { row_id := row_id, event_id := a.event_id,
      contact_hash := a.contact_hash, summary := a.summary,
      metadata := a.metadata, created_at := a.created_at }
  let vec := normalize a.embedding
  (row_id,
   { rows := s.rows ++ [row],
     id_map := s.id_map ++ [row_id],
     matrix := s.matrix ++ [vec] })

/-- A sequence of `add_record` calls applied in order. -/
noncomputable def applyAdds (s : RagStore) : List AddInput → RagStore
  | [] => s
  | a :: rest => applyAdds (add_record s a).2 rest

/-- `np.argsort(-sims)` over the similarity vector: the positions
`0 .. n-1` ordered by descending similarity. -/
noncomputable def argsortDesc (sims : List ℝ) : List ℕ :=
  (List.range sims.length).mergeSort
    (fun i j => decide (sims.getD j 0 ≤ sims.getD i 0))

/-- The body of the result-collection loop of `RagStore.query`
(rag_store.py lines 154-173) for one candidate pair: look the row id
up in the table (`None` → skip) and drop it unless its `contact_hash`
matches the requested one; a kept row becomes a `RagResult` with the
similarity rounded to 4 decimals. -/
noncomputable def resultOfPair (rows : List RagRow) (contact_hash : String)
    (p : ℕ × ℝ) : Option RagResult :=
  match rows.find? (fun r => r.row_id == p.1) with
  | none => none
  | some row =>
      if row.contact_hash == contact_hash then
        some { event_id := row.event_id, contact_hash := row.contact_hash,
               summary := row.summary, metadata := row.metadata,
               created_at := row.created_at, score := round4 p.2 }
      else none

/-- The result-collection loop of `RagStore.query`: iterate the
candidate pairs, skipping filtered ones; after appending a result the
loop breaks once `len(results) >= k`, so `k` here is the remaining
budget. -/
noncomputable def collectResults (rows : List RagRow) (contact_hash : String) :
    ℕ → List (ℕ × ℝ) → List RagResult
  | _, [] => []
  | k, p :: rest =>
      match resultOfPair rows contact_hash p with
      | none => collectResults rows contact_hash k rest
      | some res =>
          res :: (if k ≤ 1 then [] else collectResults rows contact_hash (k - 1) rest)

/-- `RagStore.query` (rag_store.py), fallback backend branch: empty
id map returns no results; otherwise the normalized query is scored
against every stored vector, the top `max(k*4, k)` positions by
descending similarity become candidate pairs `(row id, similarity)`,
and the collection loop filters them down to at most `k` in-scope
results.  (The optimized branch delegates the same ranking, capped at
`len(id_map)`, to the external faiss index.) -/
noncomputable def query (s : RagStore) (contact_hash : String)
    (query_embedding : List ℝ) (k : ℕ) : List RagResult :=
  if s.id_map = [] then []
  else
    let q := normalize query_embedding
    let sims := s.matrix.map (fun row => dot row q)
    let order := (argsortDesc sims).take (max (k * 4) k)
    let candidate_pairs := order.map
      (fun idx => (s.id_map.getD idx 0, sims.getD idx 0))
    collectResults s.rows contact_hash k candidate_pairs

/-- A concrete well-formed event (mirroring the `_event` helper of
tests/test_scoring.py), used to instantiate theorems with hypotheses
at a concrete input. -/
def sampleEvent : MetadataEvent :=
  { event_id := "evt_1", contact_hash := "abc123", ts := 0,
    interaction_type := InteractionType.call, sentiment := 9/10,
    intent := "support", summary := "Synthetic summary text.",
    metadata := [("source", "test")] }

/-! ### Helper lemmas -/

lemma round_mono_of_le {x y : ℝ} (h : x ≤ y) : round x ≤ round y := by
  rw [round_eq, round_eq]
  exact Int.floor_le_floor (by linarith)

lemma round2_mono {x y : ℝ} (h : x ≤ y) : round2 x ≤ round2 y := by
  unfold round2
  have hr : round (x * 100) ≤ round (y * 100) :=
    round_mono_of_le (by nlinarith)
  have : ((round (x * 100) : ℤ) : ℝ) ≤ ((round (y * 100) : ℤ) : ℝ) := by
    exact_mod_cast hr
  linarith

lemma round4_mono {x y : ℝ} (h : x ≤ y) : round4 x ≤ round4 y := by
  unfold round4
  have hr : round (x * 10000) ≤ round (y * 10000) :=
    round_mono_of_le (by nlinarith)
  have : ((round (x * 10000) : ℤ) : ℝ) ≤ ((round (y * 10000) : ℤ) : ℝ) := by
    exact_mod_cast hr
  linarith

lemma round2_zero : round2 0 = 0 := by
  unfold round2
  norm_num

lemma round2_hundred : round2 100 = 100 := by
  unfold round2
  norm_num

lemma round2_bounds {x : ℝ} (h0 : 0 ≤ x) (h1 : x ≤ 100) :
    0 ≤ round2 x ∧ round2 x ≤ 100 := by
  constructor
  · have := round2_mono h0
    rwa [round2_zero] at this
  · have := round2_mono h1
    rwa [round2_hundred] at this

lemma clamp_score_mem (x mn mx : ℝ) (h : mn ≤ mx) :
    mn ≤ clamp_score x mn mx ∧ clamp_score x mn mx ≤ mx := by
  unfold clamp_score
  exact ⟨le_max_left _ _, max_le h (min_le_left _ _)⟩

lemma round2_clamp_mem (x : ℝ) :
    0 ≤ round2 (clamp_score x 0 100) ∧ round2 (clamp_score x 0 100) ≤ 100 := by
  have hc := clamp_score_mem x 0 100 (by norm_num)
  exact round2_bounds hc.1 hc.2

lemma string_append_ne_empty (s t : String) (h : s.data ≠ []) :
    s ++ t ≠ "" := by
  intro he
  have h2 := congrArg String.data he
  simp [String.data_append] at h2
  exact h h2.1

/-! ### C8: band and risk classification -/

/-- C8: `band_for_score` returns "good" iff the score is at least 75,
"fading" iff it is in [45, 75), and "critical" otherwise;
`risk_level_for_score` returns "high" iff the anomaly flag is set or
the score is below 45 (so any anomaly forces "high" regardless of
score), "medium" iff no anomaly and the score is in [45, 70), and
"low" otherwise; in particular risk(82, false) = "low",
risk(60, false) = "medium" and risk(82, true) = "high". -/
theorem band_risk_classification :
    ∀ (score : ℝ) (anomaly : Bool),
      (band_for_score score = "good" ↔ 75 ≤ score)
      ∧ (band_for_score score = "fading" ↔ 45 ≤ score ∧ score < 75)
      ∧ (band_for_score score = "critical" ↔ score < 45)
      ∧ (risk_level_for_score score anomaly = "high" ↔
          (anomaly = true ∨ score < 45))
      ∧ (risk_level_for_score score anomaly = "medium" ↔
          (anomaly = false ∧ 45 ≤ score ∧ score < 70))
      ∧ (risk_level_for_score score anomaly = "low" ↔
          (anomaly = false ∧ 70 ≤ score))
      ∧ risk_level_for_score 82 false = "low"
      ∧ risk_level_for_score 60 false = "medium"
      ∧ risk_level_for_score 82 true = "high" := by
  intro score anomaly
  refine ⟨?_, ?_, ?_, ?_, ?_, ?_, ?_, ?_, ?_⟩
  · unfold band_for_score
    split_ifs with h1 h2 <;> simp_all
  · unfold band_for_score
    split_ifs with h1 h2 <;> simp_all <;> linarith
  · unfold band_for_score
    split_ifs with h1 h2 <;> simp_all <;> linarith
  · unfold risk_level_for_score
    split_ifs with h1 h2 <;> simp_all
  · unfold risk_level_for_score
    split_ifs with h1 h2 <;> simp_all <;>
      (intro ha hs
       rcases h1 with h | h
       · simp_all
       · linarith)
  · unfold risk_level_for_score
    split_ifs with h1 h2 <;> simp_all <;>
      (intro ha
       rcases h1 with h | h
       · simp_all
       · linarith)
  · unfold risk_level_for_score
    norm_num
  · unfold risk_level_for_score
    norm_num
  · unfold risk_level_for_score
    norm_num

/-! ### C5: anomaly analysis and routing -/

/-- C5: `_analyze_anomaly` flags an anomaly exactly when the score
drop `previousScore - currentScore` is at least 15 or some recent
metadata item has sentiment at most -0.35; the reason tag follows the
priority order both → "drop_and_negative_sentiment", drop only →
"score_drop", sentiment only → "negative_sentiment", neither →
"none"; and the conditional edge out of `analyze_anomaly` goes to
`query_rag` iff the anomaly flag is set and directly to `plan_action`
otherwise. -/
theorem analyze_anomaly_flags_and_routes :
    ∀ (prev cur : ℚ) (meta : List MetadataEvent) (b : Bool),
      ((analyze_anomaly prev cur meta).1 = true ↔
        (15 ≤ prev - cur ∨ ∃ item ∈ meta, item.sentiment ≤ -0.35))
      ∧ ((analyze_anomaly prev cur meta).2 = "drop_and_negative_sentiment" ↔
          (15 ≤ prev - cur ∧ ∃ item ∈ meta, item.sentiment ≤ -0.35))
      ∧ ((analyze_anomaly prev cur meta).2 = "score_drop" ↔
          (15 ≤ prev - cur ∧ ¬ ∃ item ∈ meta, item.sentiment ≤ -0.35))
      ∧ ((analyze_anomaly prev cur meta).2 = "negative_sentiment" ↔
          (¬ 15 ≤ prev - cur ∧ ∃ item ∈ meta, item.sentiment ≤ -0.35))
      ∧ ((analyze_anomaly prev cur meta).2 = "none" ↔
          (¬ 15 ≤ prev - cur ∧ ¬ ∃ item ∈ meta, item.sentiment ≤ -0.35))
      ∧ (flow_next .analyze_anomaly b = .query_rag ↔ b = true)
      ∧ (flow_next .analyze_anomaly b = .plan_action ↔ b = false)
      ∧ flow_next .query_rag b = .plan_action
      ∧ flow_next .plan_action b = .schedule_action := by
  intro prev cur meta b
  have hany : (meta.any (fun item => decide (item.sentiment ≤ -0.35)) = true) ↔
      ∃ item ∈ meta, item.sentiment ≤ -0.35 := by
    simp [List.any_eq_true]
  refine ⟨?_, ?_, ?_, ?_, ?_, ?_, ?_, ?_, ?_⟩
  · unfold analyze_anomaly
    simp only [Bool.or_eq_true, decide_eq_true_iff, hany, ge_iff_le]
  · unfold analyze_anomaly
    simp only [ge_iff_le]
    split_ifs with h1 h2 h3 <;> simp_all [hany]
  · unfold analyze_anomaly
    simp only [ge_iff_le]
    split_ifs with h1 h2 h3 <;> simp_all [hany]
  · unfold analyze_anomaly
    simp only [ge_iff_le]
    split_ifs with h1 h2 h3 <;> simp_all [hany]
  · unfold analyze_anomaly
    simp only [ge_iff_le]
    split_ifs with h1 h2 h3 <;> simp_all [hany]
  · cases b <;> simp [flow_next, route_after_anomaly]
  · cases b <;> simp [flow_next, route_after_anomaly]
  · rfl
  · rfl

/-! ### C9: event validation -/

/-- C9: `MetadataEvent` construction succeeds exactly when the
sentiment lies in [-1, 1], the summary has between 8 and 280
characters, and no forbidden raw-text key (raw_message, message_text,
full_text, chat_text) appears in the metadata sidecar; otherwise it is
a validation error, so such events never become `MetadataEvent` values
and never enter scoring or storage (both of which consume
`MetadataEvent`). -/
theorem metadata_event_validation :
    ∀ (eid ch : String) (ts : ℚ) (it : InteractionType) (sent : ℚ)
      (intent summary : String) (meta : List (String × String)),
      (mk_metadata_event eid ch ts it sent intent summary meta).isOk = true ↔
        (-1 ≤ sent ∧ sent ≤ 1
          ∧ 8 ≤ summary.length ∧ summary.length ≤ 280
          ∧ ∀ k ∈ meta.map Prod.fst, k ∉ forbidden_keys) := by
  intro eid ch ts it sent intent summary meta
  have isOk_error : ∀ e : String,
      (Except.error e : Except String MetadataEvent).isOk = false := fun _ => rfl
  have isOk_ok : ∀ ev : MetadataEvent,
      (Except.ok ev : Except String MetadataEvent).isOk = true := fun _ => rfl
  unfold mk_metadata_event
  split_ifs with h1 h2 h3
  · rw [isOk_error]
    simp only [Bool.false_eq_true, false_iff]
    intro hc
    rcases hc with ⟨_, _, _, _, hforb⟩
    rw [List.any_eq_true] at h3
    obtain ⟨k, hk, hkc⟩ := h3
    rw [List.contains_iff_exists_mem_beq] at hkc
    obtain ⟨k2, hk2, hbeq⟩ := hkc
    rw [beq_iff_eq] at hbeq
    exact hforb k hk (hbeq ▸ hk2)
  · rw [isOk_ok]
    simp only [true_iff]
    refine ⟨h1.1, h1.2, h2.1, h2.2, ?_⟩
    intro k hk hkf
    apply h3
    rw [List.any_eq_true]
    refine ⟨k, hk, ?_⟩
    rw [List.contains_iff_exists_mem_beq]
    exact ⟨k, hkf, by simp⟩
  · rw [isOk_error]
    simp only [Bool.false_eq_true, false_iff]
    intro hc
    rcases hc with ⟨_, _, hl1, hl2, _⟩
    exact h2 ⟨hl1, hl2⟩
  · rw [isOk_error]
    simp only [Bool.false_eq_true, false_iff]
    intro hc
    rcases hc with ⟨ha, hb, _⟩
    exact h1 ⟨ha, hb⟩

/-! ### C1: the relationship score stays in [0, 100] -/

/-- C1: for every finite event sequence and every previous score in
[0, 100], `compute_relationship_score` with the default score bounds
(`min_score = 0`, `max_score = 100`) returns a value in [0, 100]. -/
theorem compute_relationship_score_in_range
    (events : List MetadataEvent) (previous_score : ℝ) (as_of : ℚ)
    (hp : ScoringHyperParams)
    (hmin : hp.min_score = 0) (hmax : hp.max_score = 100)
    (hp0 : 0 ≤ previous_score) (hp1 : previous_score ≤ 100) :
    0 ≤ compute_relationship_score events previous_score as_of hp
      ∧ compute_relationship_score events previous_score as_of hp ≤ 100 := by
  unfold compute_relationship_score
  split
  · rw [hmin, hmax]
    exact round2_clamp_mem _
  · rw [hmin, hmax]
    exact round2_clamp_mem _

/-- Witness for C1 at a concrete input. -/
theorem compute_relationship_score_in_range_witness :
    0 ≤ compute_relationship_score [] 50 0 defaultHyperParams
      ∧ compute_relationship_score [] 50 0 defaultHyperParams ≤ 100 :=
  compute_relationship_score_in_range [] 50 0 defaultHyperParams
    (by norm_num [defaultHyperParams]) (by norm_num [defaultHyperParams])
    (by norm_num) (by norm_num)

/-! ### C7: the trained decay rate -/

lemma round4_half : round4 ((1:ℝ)/2) = 1/2 := by
  unfold round4
  rw [show ((1:ℝ)/2) * 10000 = (5000:ℝ) by norm_num]
  norm_num

lemma round4_low : round4 (0.03 : ℝ) = 0.03 := by
  unfold round4
  rw [show (0.03:ℝ) * 10000 = (300:ℝ) by norm_num]
  norm_num

lemma round4_high : round4 (0.2 : ℝ) = 0.2 := by
  unfold round4
  rw [show (0.2:ℝ) * 10000 = (2000:ℝ) by norm_num]
  norm_num

/-- C7 fails as stated: with fewer than 2 events the base rate is
returned unchanged, so a base rate outside [0.03, 0.2] is returned
outside [0.03, 0.2]: `train_temporal_decay([], 0.5) = 0.5 > 0.2`. -/
theorem train_temporal_decay_range_counterexample :
    train_temporal_decay [] ((1:ℝ)/2) = 1/2
      ∧ ¬ train_temporal_decay [] ((1:ℝ)/2) ≤ 0.2 := by
  have h : train_temporal_decay [] ((1:ℝ)/2) = round4 ((1:ℝ)/2) := by
    unfold train_temporal_decay sortEvents
    simp
  rw [h, round4_half]
  norm_num

/-- C7 amended: with fewer than 2 events `train_temporal_decay`
returns the base rate rounded to 4 decimals (not necessarily in
[0.03, 0.2]); with at least 2 events it returns
`baseLambda + 0.01*min(avgGap, 7) + 0.003*min(variability, 7)` clamped
to [0.03, 0.2] and rounded to 4 decimals, which always lies in
[0.03, 0.2]. -/
theorem train_temporal_decay_amended :
    (∀ bl : ℝ, train_temporal_decay [] bl = round4 bl)
    ∧ (∀ (e : MetadataEvent) (bl : ℝ), train_temporal_decay [e] bl = round4 bl)
    ∧ (∀ (e1 e2 : MetadataEvent) (rest : List MetadataEvent) (bl : ℝ),
        train_temporal_decay (e1 :: e2 :: rest) bl =
          round4 (max 0.03 (min 0.2 (bl
            + 0.01 * ((min (avg_gap (eventGaps (sortEvents (e1 :: e2 :: rest)))) 7 : ℚ) : ℝ)
            + 0.003 * ((min (gap_variability (eventGaps (sortEvents (e1 :: e2 :: rest)))) 7 : ℚ) : ℝ))))
        ∧ 0.03 ≤ train_temporal_decay (e1 :: e2 :: rest) bl
        ∧ train_temporal_decay (e1 :: e2 :: rest) bl ≤ 0.2) := by
  have hclamp : ∀ t : ℝ,
      0.03 ≤ round4 (max 0.03 (min 0.2 t))
        ∧ round4 (max 0.03 (min 0.2 t)) ≤ 0.2 := by
    intro t
    constructor
    · have := round4_mono (le_max_left (0.03:ℝ) (min 0.2 t))
      rwa [round4_low] at this
    · have hle : max (0.03:ℝ) (min 0.2 t) ≤ 0.2 :=
        max_le (by norm_num) (min_le_left _ _)
      have := round4_mono hle
      rwa [round4_high] at this
  refine ⟨?_, ?_, ?_⟩
  · intro bl
    unfold train_temporal_decay sortEvents
    simp
  · intro e bl
    unfold train_temporal_decay sortEvents
    simp
  · intro e1 e2 rest bl
    have hlen : ¬ (sortEvents (e1 :: e2 :: rest)).length < 2 := by
      unfold sortEvents
      rw [List.length_mergeSort]
      simp
    constructor
    · unfold train_temporal_decay
      rw [if_neg hlen]
    · have heq : train_temporal_decay (e1 :: e2 :: rest) bl =
          round4 (max 0.03 (min 0.2 (bl
            + 0.01 * ((min (avg_gap (eventGaps (sortEvents (e1 :: e2 :: rest)))) 7 : ℚ) : ℝ)
            + 0.003 * ((min (gap_variability (eventGaps (sortEvents (e1 :: e2 :: rest)))) 7 : ℚ) : ℝ)))) := by
        unfold train_temporal_decay
        rw [if_neg hlen]
      rw [heq]
      exact hclamp _

/-! ### C2: the two-phase scoring algorithm -/

lemma scoreLoop_eq_foldl (hp : ScoringHyperParams) (now : ℚ) :
    ∀ (l : List MetadataEvent) (score : ℝ) (pts : ℚ),
      scoreLoop hp now score pts l =
        l.foldl (fun acc ev =>
            (update_score acc.1 ev (days_between ev.ts acc.2) now hp, ev.ts))
          (score, pts) := by
  intro l
  induction l with
  | nil => intro score pts; rfl
  | cons e rest ih =>
      intro score pts
      rw [List.foldl_cons]
      exact ih _ _

lemma getLastD_map_ts :
    ∀ (l : List MetadataEvent) (a : MetadataEvent),
      (l.map MetadataEvent.ts).getLastD a.ts = (l.getLastD a).ts := by
  intro l
  induction l with
  | nil => intro a; rfl
  | cons x xs ih =>
      intro a
      rw [List.map_cons, List.getLastD_cons, List.getLastD_cons]
      exact ih x

lemma scoreLoop_snd (hp : ScoringHyperParams) (now : ℚ) :
    ∀ (l : List MetadataEvent) (score : ℝ) (pts : ℚ),
      (scoreLoop hp now score pts l).2 = (l.map MetadataEvent.ts).getLastD pts := by
  intro l
  induction l with
  | nil => intro score pts; rfl
  | cons e rest ih =>
      intro score pts
      rw [List.map_cons, List.getLastD_cons]
      exact ih _ _

lemma scoreLoop_snd_cons (hp : ScoringHyperParams) (now : ℚ) (score : ℝ)
    (e : MetadataEvent) (rest : List MetadataEvent) :
    (scoreLoop hp now score e.ts (e :: rest)).2 = (rest.getLastD e).ts := by
  rw [scoreLoop_snd]
  rw [List.map_cons, List.getLastD_cons]
  exact getLastD_map_ts rest e

lemma ts_le_trans : ∀ a b c : MetadataEvent,
    decide (a.ts ≤ b.ts) = true → decide (b.ts ≤ c.ts) = true →
      decide (a.ts ≤ c.ts) = true := by
  intro a b c h1 h2
  rw [decide_eq_true_iff] at h1 h2 ⊢
  exact le_trans h1 h2

lemma ts_le_total : ∀ a b : MetadataEvent,
    (decide (a.ts ≤ b.ts) || decide (b.ts ≤ a.ts)) = true := by
  intro a b
  rcases le_total a.ts b.ts with h | h <;> simp [h]

/-- C2: `compute_relationship_score` implements the spec's two-phase
algorithm: it equals the spec-side `computeRelationshipScoreSpec`
(empty → clamp+round of the previous score; otherwise fold
`update_score` over the sorted events starting from the clamped
previous score with `deltaDays` the gap to the previous event, then
one tail decay for the gap from the last event to `as_of`, clamped and
rounded to 2 decimals); and the sort used is an ascending-by-timestamp
permutation that keeps every already-ordered sublist in order
(stability on ties). -/
theorem compute_relationship_score_two_phase :
    ∀ (events : List MetadataEvent) (previous_score : ℝ) (as_of : ℚ)
      (hp : ScoringHyperParams),
      compute_relationship_score events previous_score as_of hp =
          computeRelationshipScoreSpec events previous_score as_of hp
        ∧ (sortEvents events).Pairwise (fun a b => a.ts ≤ b.ts)
        ∧ (sortEvents events).Perm events
        ∧ (∀ c : List MetadataEvent, c.Pairwise (fun a b => a.ts ≤ b.ts) →
            c.Sublist events → c.Sublist (sortEvents events)) := by
  intro events previous_score as_of hp
  refine ⟨?_, ?_, ?_, ?_⟩
  · unfold compute_relationship_score computeRelationshipScoreSpec
    rcases hs : sortEvents events with _ | ⟨e, rest⟩
    · rfl
    · simp only
      rw [scoreLoop_eq_foldl, ← scoreLoop_eq_foldl, scoreLoop_snd_cons]
  · have h := List.sorted_mergeSort ts_le_trans ts_le_total events
    exact h.imp (fun hab => of_decide_eq_true hab)
  · exact List.mergeSort_perm events _
  · intro c hc hsub
    exact List.sublist_mergeSort ts_le_trans ts_le_total
      (hc.imp (fun hab => decide_eq_true hab)) hsub

/-! ### C10: the first fold step applies no decay -/

/-- C10: in the non-empty case the fold starts with `prev_ts` equal to
the first sorted event's own timestamp, so the first `update_score`
step receives `deltaDays = 0` and the previous score is not decayed
for any wall-clock time before the first event (a delta-0 update is
just clamp(old + impact)); decay inside the fold depends only on
inter-event gaps (the `scoreLoop` recursion), and only the final tail
factor decays for the gap from the last event to `as_of`. -/
theorem first_fold_step_no_decay
    (events : List MetadataEvent) (previous_score : ℝ) (as_of : ℚ)
    (hp : ScoringHyperParams) (e : MetadataEvent) (rest : List MetadataEvent)
    (hs : sortEvents events = e :: rest) :
    (∀ s : ℝ, scoreLoop hp as_of s e.ts (e :: rest) =
        scoreLoop hp as_of (update_score s e 0 as_of hp) e.ts rest)
      ∧ (∀ s : ℝ, update_score s e 0 as_of hp =
          clamp_score (s + interaction_impact e as_of hp)
            hp.min_score hp.max_score)
      ∧ compute_relationship_score events previous_score as_of hp =
          round2 (clamp_score
            ((scoreLoop hp as_of
                (clamp_score previous_score hp.min_score hp.max_score)
                e.ts (e :: rest)).1
              * Real.exp (-hp.lambda_decay *
                  ((days_between as_of
                    (scoreLoop hp as_of
                      (clamp_score previous_score hp.min_score hp.max_score)
                      e.ts (e :: rest)).2 : ℚ) : ℝ)))
            hp.min_score hp.max_score) := by
  have hzero : days_between e.ts e.ts = 0 := by
    unfold days_between
    simp
  refine ⟨?_, ?_, ?_⟩
  · intro s
    show scoreLoop hp as_of
        (update_score s e (days_between e.ts e.ts) as_of hp) e.ts rest = _
    rw [hzero]
  · intro s
    unfold update_score
    rw [show (max (0:ℚ) 0) = 0 from max_self 0]
    push_cast
    rw [mul_zero, Real.exp_zero, mul_one]
  · unfold compute_relationship_score
    rw [hs]

/-- Witness for C10 at a concrete one-event input. -/
theorem first_fold_step_no_decay_witness :
    compute_relationship_score [sampleEvent] 50 0 defaultHyperParams =
      round2 (clamp_score
        ((scoreLoop defaultHyperParams 0
            (clamp_score 50 defaultHyperParams.min_score defaultHyperParams.max_score)
            sampleEvent.ts [sampleEvent]).1
          * Real.exp (-defaultHyperParams.lambda_decay *
              ((days_between 0
                (scoreLoop defaultHyperParams 0
                  (clamp_score 50 defaultHyperParams.min_score defaultHyperParams.max_score)
                  sampleEvent.ts [sampleEvent]).2 : ℚ) : ℝ)))
        defaultHyperParams.min_score defaultHyperParams.max_score) :=
  (first_fold_step_no_decay [sampleEvent] 50 0 defaultHyperParams sampleEvent []
    (by simp [sortEvents, List.mergeSort_singleton])).2.2

/-! ### C6: the planner always returns a fully-populated plan -/

lemma lit_append_ne_empty (a x b : String) (ha : a.data ≠ []) :
    a ++ x ++ b ≠ "" := by
  apply string_append_ne_empty
  rw [String.data_append]
  intro h
  exact ha (List.append_eq_nil.mp h).1

lemma fallback_fields_ne_empty (state : PlannerState) :
    (fallback_plan state).recommended_action ≠ ""
      ∧ (fallback_plan state).draft_message ≠ ""
      ∧ (fallback_plan state).action_type ≠ ""
      ∧ (fallback_plan state).priority ≠ "" := by
  unfold fallback_plan
  split_ifs <;>
    exact ⟨lit_append_ne_empty _ _ _ (by decide),
      lit_append_ne_empty _ _ _ (by decide), by simp, by simp⟩

lemma sanitize_field_ne_empty (v : Option String) (fb : String)
    (h : fb ≠ "") : sanitize_field v fb ≠ "" := by
  unfold sanitize_field
  by_cases hs : (v.getD fb).trim = ""
  · rw [if_pos hs]
    exact h
  · rw [if_neg hs]
    exact hs

/-- C6: `recommend` always returns a fully-populated plan with
non-blank string fields; a collaborator failure yields the rule-based
fallback, tiered anomaly-or-score<45 → high/draft_and_schedule/24h,
score<75 → medium/draft/8h, else low/deprioritize/72h; and any
collaborator response is sanitized by merging it field by field over
that fallback: a blank field is replaced by the fallback value, a
missing field by the stripped fallback value (identical, since every
rule-based fallback text is strip-invariant), a present non-blank
string is kept stripped, and a missing or non-integer
`schedule_in_hours` falls back to the tier default. -/
theorem planner_recommend_contract :
    ∀ (state : PlannerState) (r : PlannerResponse)
      (collab : Option PlannerResponse),
      (recommend collab state).recommended_action ≠ ""
      ∧ (recommend collab state).draft_message ≠ ""
      ∧ (recommend collab state).action_type ≠ ""
      ∧ (recommend collab state).priority ≠ ""
      ∧ recommend none state = fallback_plan state
      ∧ recommend (some r) state = sanitize_output r state
      ∧ (((fallback_plan state).priority, (fallback_plan state).action_type,
            (fallback_plan state).schedule_in_hours)
            = ("high", "draft_and_schedule", 24)
          ↔ (state.anomaly_detected = true ∨ state.current_score < 45))
      ∧ (((fallback_plan state).priority, (fallback_plan state).action_type,
            (fallback_plan state).schedule_in_hours) = ("medium", "draft", 8)
          ↔ (state.anomaly_detected = false ∧ 45 ≤ state.current_score
              ∧ state.current_score < 75))
      ∧ (((fallback_plan state).priority, (fallback_plan state).action_type,
            (fallback_plan state).schedule_in_hours) = ("low", "deprioritize", 72)
          ↔ (state.anomaly_detected = false ∧ 75 ≤ state.current_score))
      ∧ (sanitize_output r state).recommended_action
          = sanitize_field r.recommended_action (fallback_plan state).recommended_action
      ∧ (sanitize_output r state).draft_message
          = sanitize_field r.draft_message (fallback_plan state).draft_message
      ∧ (sanitize_output r state).action_type
          = sanitize_field r.action_type (fallback_plan state).action_type
      ∧ (sanitize_output r state).priority
          = sanitize_field r.priority (fallback_plan state).priority
      ∧ (sanitize_output r state).schedule_in_hours
          = sanitize_schedule r.schedule_in_hours (fallback_plan state).schedule_in_hours
      ∧ (∀ (s fb : String),
          (s.trim = "" → sanitize_field (some s) fb = fb)
          ∧ (s.trim ≠ "" → sanitize_field (some s) fb = s.trim)
          ∧ (fb.trim = fb → sanitize_field none fb = fb))
      ∧ (∀ fb : ℤ, sanitize_schedule none fb = fb
          ∧ sanitize_schedule (some none) fb = fb
          ∧ ∀ n : ℤ, sanitize_schedule (some (some n)) fb = n) := by
  intro state r collab
  obtain ⟨hf1, hf2, hf3, hf4⟩ := fallback_fields_ne_empty state
  have hnb : (recommend collab state).recommended_action ≠ ""
      ∧ (recommend collab state).draft_message ≠ ""
      ∧ (recommend collab state).action_type ≠ ""
      ∧ (recommend collab state).priority ≠ "" := by
    rcases collab with _ | r2
    · exact ⟨hf1, hf2, hf3, hf4⟩
    · exact ⟨sanitize_field_ne_empty _ _ hf1, sanitize_field_ne_empty _ _ hf2,
        sanitize_field_ne_empty _ _ hf3, sanitize_field_ne_empty _ _ hf4⟩
  refine ⟨hnb.1, hnb.2.1, hnb.2.2.1, hnb.2.2.2, rfl, rfl, ?_, ?_, ?_,
    rfl, rfl, rfl, rfl, rfl, ?_, ?_⟩
  · unfold fallback_plan
    split_ifs with h1 h2 <;> simp_all
  · unfold fallback_plan
    split_ifs with h1 h2 <;> simp_all <;>
      (intro hb hc
       rcases h1 with h | h
       · simp_all
       · linarith)
  · unfold fallback_plan
    split_ifs with h1 h2 <;> simp_all <;>
      (intro hb
       rcases h1 with h | h
       · simp_all
       · linarith)
  · intro s fb
    refine ⟨?_, ?_, ?_⟩
    · intro hs
      unfold sanitize_field
      simp [hs]
    · intro hs
      unfold sanitize_field
      simp [hs]
    · intro hfb
      unfold sanitize_field
      simp only [Option.getD_none, hfb]
      split_ifs <;> rfl
  · intro fb
    exact ⟨rfl, rfl, fun n => rfl⟩

/-! ### C4: the id-map / vector-count invariant -/

lemma applyAdds_invariant :
    ∀ (adds : List AddInput) (s : RagStore),
      (s.id_map.length = s.matrix.length
        ∧ s.id_map = s.rows.map RagRow.row_id
        ∧ s.rows.map RagRow.row_id = List.range' 1 s.rows.length) →
      ((applyAdds s adds).id_map.length = (applyAdds s adds).matrix.length
        ∧ (applyAdds s adds).id_map = (applyAdds s adds).rows.map RagRow.row_id
        ∧ (applyAdds s adds).rows.map RagRow.row_id
            = List.range' 1 (applyAdds s adds).rows.length) := by
  intro adds
  induction adds with
  | nil => intro s h; exact h
  | cons a rest ih =>
      intro s h
      obtain ⟨h1, h2, h3⟩ := h
      apply ih
      unfold add_record
      refine ⟨?_, ?_, ?_⟩
      · simp only [List.length_append, List.length_singleton, h1]
      · simp only [List.map_append, List.map_cons, List.map_nil]
        rw [h2]
      · simp only [List.map_append, List.map_cons, List.map_nil,
          List.length_append, List.length_singleton]
        rw [h3, List.range'_1_concat]
        simp [Nat.add_comm]

/-- C4: after any sequence of `add_record` calls starting from the
empty store, `len(id_map)` equals the number of stored vectors, the
id map lists exactly the appended row ids in order (position i holds
the i-th appended record id, which is i+1 by `AUTOINCREMENT`), and the
state reloaded from the persisted snapshot is the same state. -/
theorem id_map_vector_invariant :
    ∀ adds : List AddInput,
      (applyAdds emptyStore adds).id_map.length
          = (applyAdds emptyStore adds).matrix.length
      ∧ (applyAdds emptyStore adds).id_map
          = (applyAdds emptyStore adds).rows.map RagRow.row_id
      ∧ (applyAdds emptyStore adds).rows.map RagRow.row_id
          = List.range' 1 (applyAdds emptyStore adds).rows.length
      ∧ load_state (applyAdds emptyStore adds).rows
            (persist_state (applyAdds emptyStore adds))
          = applyAdds emptyStore adds := by
  intro adds
  have h := applyAdds_invariant adds emptyStore (by exact ⟨rfl, rfl, rfl⟩)
  exact ⟨h.1, h.2.1, h.2.2, rfl⟩

/-! ### C3: the query contract -/

lemma argsortDesc_pairwise (sims : List ℝ) :
    (argsortDesc sims).Pairwise
      (fun i j => sims.getD j 0 ≤ sims.getD i 0) := by
  have htrans : ∀ i j l : ℕ,
      decide (sims.getD j 0 ≤ sims.getD i 0) = true →
      decide (sims.getD l 0 ≤ sims.getD j 0) = true →
      decide (sims.getD l 0 ≤ sims.getD i 0) = true := by
    intro i j l h1 h2
    rw [decide_eq_true_iff] at h1 h2 ⊢
    exact le_trans h2 h1
  have htotal : ∀ i j : ℕ,
      (decide (sims.getD j 0 ≤ sims.getD i 0)
        || decide (sims.getD i 0 ≤ sims.getD j 0)) = true := by
    intro i j
    rcases le_total (sims.getD j 0) (sims.getD i 0) with h | h
    · rw [Bool.or_eq_true]
      exact Or.inl (decide_eq_true h)
    · rw [Bool.or_eq_true]
      exact Or.inr (decide_eq_true h)
  have h := List.sorted_mergeSort htrans htotal (List.range sims.length)
  exact h.imp (fun hab => of_decide_eq_true hab)

lemma resultOfPair_contact {rows : List RagRow} {c : String} {p : ℕ × ℝ}
    {r : RagResult} (h : resultOfPair rows c p = some r) :
    r.contact_hash = c := by
  unfold resultOfPair at h
  rcases hf : rows.find? (fun row => row.row_id == p.1) with _ | row
  · simp only [hf] at h
    exact Option.noConfusion h
  · simp only [hf] at h
    by_cases hc : row.contact_hash == c
    · rw [if_pos hc] at h
      have := Option.some.inj h
      rw [← this]
      exact beq_iff_eq.mp hc
    · rw [if_neg hc] at h
      exact absurd h (by simp)

lemma resultOfPair_score {rows : List RagRow} {c : String} {p : ℕ × ℝ}
    {r : RagResult} (h : resultOfPair rows c p = some r) :
    r.score = round4 p.2 := by
  unfold resultOfPair at h
  rcases hf : rows.find? (fun row => row.row_id == p.1) with _ | row
  · simp only [hf] at h
    exact Option.noConfusion h
  · simp only [hf] at h
    by_cases hc : row.contact_hash == c
    · rw [if_pos hc] at h
      have := Option.some.inj h
      rw [← this]
    · rw [if_neg hc] at h
      exact absurd h (by simp)

lemma collectResults_length (rows : List RagRow) (c : String) :
    ∀ (l : List (ℕ × ℝ)) (k : ℕ), 1 ≤ k →
      (collectResults rows c k l).length ≤ k := by
  intro l
  induction l with
  | nil => intro k hk; simp [collectResults]
  | cons p rest ih =>
      intro k hk
      unfold collectResults
      rcases hr : resultOfPair rows c p with _ | res
      · exact ih k hk
      · by_cases h1 : k ≤ 1
        · rw [if_pos h1]
          simpa using le_trans (by omega) hk
        · rw [if_neg h1]
          have := ih (k - 1) (by omega)
          simp only [List.length_cons]
          omega

lemma collectResults_mem (rows : List RagRow) (c : String) :
    ∀ (l : List (ℕ × ℝ)) (k : ℕ) (r : RagResult),
      r ∈ collectResults rows c k l →
        ∃ p ∈ l, resultOfPair rows c p = some r := by
  intro l
  induction l with
  | nil => intro k r h; exact absurd h (by simp [collectResults])
  | cons p rest ih =>
      intro k r h
      unfold collectResults at h
      rcases hr : resultOfPair rows c p with _ | res
      · rw [hr] at h
        obtain ⟨q, hq, hres⟩ := ih k r h
        exact ⟨q, List.mem_cons_of_mem _ hq, hres⟩
      · rw [hr] at h
        rcases List.mem_cons.mp h with he | htail
        · exact ⟨p, List.mem_cons_self _ _, by rw [hr, he]⟩
        · by_cases h1 : k ≤ 1
          · rw [if_pos h1] at htail
            exact absurd htail (by simp)
          · rw [if_neg h1] at htail
            obtain ⟨q, hq, hres⟩ := ih (k - 1) r htail
            exact ⟨q, List.mem_cons_of_mem _ hq, hres⟩

lemma collectResults_pairwise (rows : List RagRow) (c : String) :
    ∀ (l : List (ℕ × ℝ)) (k : ℕ),
      l.Pairwise (fun x y => y.2 ≤ x.2) →
      (collectResults rows c k l).Pairwise
        (fun a b => b.score ≤ a.score) := by
  intro l
  induction l with
  | nil => intro k h; simp [collectResults]
  | cons p rest ih =>
      intro k h
      have hh := List.pairwise_cons.mp h
      unfold collectResults
      rcases hr : resultOfPair rows c p with _ | res
      · exact ih k hh.2
      · refine List.pairwise_cons.mpr ⟨?_, ?_⟩
        · intro b hb
          by_cases h1 : k ≤ 1
          · rw [if_pos h1] at hb
            exact absurd hb (by simp)
          · rw [if_neg h1] at hb
            obtain ⟨q, hq, hres⟩ := collectResults_mem rows c rest (k - 1) b hb
            rw [resultOfPair_score hres, resultOfPair_score hr]
            exact round4_mono (hh.1 q hq)
        · by_cases h1 : k ≤ 1
          · rw [if_pos h1]
            exact List.Pairwise.nil
          · rw [if_neg h1]
            exact ih (k - 1) hh.2

lemma resultOfPair_none_of_no_contact {rows : List RagRow} {c : String}
    (h : ∀ row ∈ rows, row.contact_hash ≠ c) (p : ℕ × ℝ) :
    resultOfPair rows c p = none := by
  unfold resultOfPair
  rcases hf : rows.find? (fun row => row.row_id == p.1) with _ | row
  · simp only [hf]
  · have hrow := List.mem_of_find?_eq_some hf
    simp only [hf]
    rw [if_neg]
    intro hc
    exact h row hrow (beq_iff_eq.mp hc)

lemma collectResults_empty_of_no_contact {rows : List RagRow} {c : String}
    (h : ∀ row ∈ rows, row.contact_hash ≠ c) :
    ∀ (l : List (ℕ × ℝ)) (k : ℕ), collectResults rows c k l = [] := by
  intro l
  induction l with
  | nil => intro k; rfl
  | cons p rest ih =>
      intro k
      unfold collectResults
      rw [resultOfPair_none_of_no_contact h p]
      exact ih k

lemma applyAdds_rows_from_adds :
    ∀ (adds : List AddInput) (s : RagStore) (row : RagRow),
      row ∈ (applyAdds s adds).rows →
        row ∈ s.rows ∨ ∃ a ∈ adds, row.contact_hash = a.contact_hash := by
  intro adds
  induction adds with
  | nil => intro s row h; exact Or.inl h
  | cons a rest ih =>
      intro s row h
      rcases ih (add_record s a).2 row h with hmem | ⟨a2, ha2, hc⟩
      · unfold add_record at hmem
        rcases List.mem_append.mp hmem with hold | hnew
        · exact Or.inl hold
        · refine Or.inr ⟨a, List.mem_cons_self _ _, ?_⟩
          rw [List.mem_singleton.mp hnew]
      · exact Or.inr ⟨a2, List.mem_cons_of_mem _ ha2, hc⟩

/-- C3: for every store reachable by a sequence of `add_record` calls
from the empty store and every query, `query` returns at most `k`
results, sorted by descending similarity score; every returned
record's `contact_hash` equals the requested one (a record stored for
contact A is never returned for contact B); a query on a store with
zero vectors returns the empty list, and so does a query for a
contact with no in-scope records after filtering. -/
theorem query_scoped_topk :
    ∀ (adds : List AddInput) (c : String) (emb : List ℝ) (k : ℕ),
      (query (applyAdds emptyStore adds) c emb k).length ≤ k
      ∧ (query (applyAdds emptyStore adds) c emb k).Pairwise
          (fun a b => b.score ≤ a.score)
      ∧ (∀ r ∈ query (applyAdds emptyStore adds) c emb k, r.contact_hash = c)
      ∧ (adds = [] → query (applyAdds emptyStore adds) c emb k = [])
      ∧ ((∀ a ∈ adds, a.contact_hash ≠ c) →
          query (applyAdds emptyStore adds) c emb k = []) := by
  intro adds c emb k
  by_cases hid : (applyAdds emptyStore adds).id_map = []
  · unfold query
    rw [if_pos hid]
    simp
  · have hq : query (applyAdds emptyStore adds) c emb k =
        collectResults (applyAdds emptyStore adds).rows c k
          ((((argsortDesc ((applyAdds emptyStore adds).matrix.map
                (fun row => dot row (normalize emb))))).take (max (k * 4) k)).map
            (fun idx => ((applyAdds emptyStore adds).id_map.getD idx 0,
              ((applyAdds emptyStore adds).matrix.map
                (fun row => dot row (normalize emb))).getD idx 0))) := by
      unfold query
      rw [if_neg hid]
    have hpair : ((((argsortDesc ((applyAdds emptyStore adds).matrix.map
          (fun row => dot row (normalize emb))))).take (max (k * 4) k)).map
        (fun idx => ((applyAdds emptyStore adds).id_map.getD idx 0,
          ((applyAdds emptyStore adds).matrix.map
            (fun row => dot row (normalize emb))).getD idx 0))).Pairwise
        (fun x y => y.2 ≤ x.2) := by
      rw [List.pairwise_map]
      exact List.Pairwise.sublist (List.take_sublist _ _)
        (argsortDesc_pairwise _)
    refine ⟨?_, ?_, ?_, ?_, ?_⟩
    · rcases Nat.eq_zero_or_pos k with hk | hk
      · subst hk
        rw [hq]
        simp [collectResults]
      · rw [hq]
        exact collectResults_length _ _ _ _ hk
    · rw [hq]
      exact collectResults_pairwise _ _ _ _ hpair
    · intro r hr
      rw [hq] at hr
      obtain ⟨p, _, hres⟩ := collectResults_mem _ _ _ _ _ hr
      exact resultOfPair_contact hres
    · intro he
      subst he
      exact absurd rfl hid
    · intro hnc
      rw [hq]
      apply collectResults_empty_of_no_contact
      intro row hrow
      rcases applyAdds_rows_from_adds adds emptyStore row hrow with hmem | ⟨a, ha, hc⟩
      · exact absurd hmem (by simp [emptyStore])
      · rw [hc]
        exact hnc a ha

end BubbleOne
